import Mathlib

/-!
# Verification of the reminder-bot core (src/bot.py)

Shallow embedding of the subscriber registry, the dispatcher and the
startup logic of `src/bot.py`, with theorems settling the behavioural
claims about the program.

Modelling conventions:
* Python `set[int]` is `Finset Int` (when elements are known to be
  integers) or `Finset JAtom` (for the dynamically typed result of
  `set(json.load(f))`).
* The persisted file `chat_ids.json` is modelled at two levels: as a
  parse-level `FileState` (missing / present-but-unparseable / parsed
  JSON value), which is what `open` + `json.load` can observe, and as a
  plain `List Int` for the well-formed files produced by
  `_save_chat_ids` (a JSON array of integers).
* A Python function that may raise maps to `Except PyErr _`; a function
  modelled as total in Lean corresponds to Python code that cannot
  raise to its caller.
* Logging calls are recorded as explicit log entries carrying the
  `logging` level used at the call site.
-/

/-- Python logging levels (module `logging`). `src/bot.py` only ever
calls `logger.info` and `logger.error`; the other levels exist in the
model so that "logs a warning" is expressible. -/
inductive LogLevel
  | debug
  | info
  | warning
  | error
deriving DecidableEq, Repr

/-- Python exceptions relevant to the embedded code paths. -/
inductive PyErr
  | typeError
deriving DecidableEq, Repr

/-- An atomic (hashable) JSON value: `None`, booleans, numbers,
strings. -/
inductive JAtom
  | null
  | bool (b : Bool)
  | num (n : Int)
  | str (s : String)
deriving DecidableEq, Repr

/-- A JSON value, the result type of `json.load`: an atom or an array.
Arrays decode to Python lists, which are unhashable. -/
inductive JVal
  | atom (a : JAtom)
  | arr (l : List JVal)

/-- The element of a decoded array as a set element: atoms are
hashable, nested arrays (Python lists) are not. -/
def JVal.asAtom : JVal → Option JAtom
  | .atom a => some a
  | .arr _ => none

/-- The elements of a decoded array as set elements: `some` the atoms
when every element is hashable, `none` when some element is a nested
array (a Python list, unhashable). -/
def atomsOf : List JVal → Option (List JAtom)
  | [] => some []
  | v :: rest =>
      match v.asAtom, atomsOf rest with
      | some a, some l => some (a :: l)
      | _, _ => none

/-- Python `set(x)` applied to a decoded JSON value: iterating a list
collects its elements into a set, raising `TypeError` if an element is
unhashable; iterating a string collects its one-character substrings;
numbers, booleans and `None` are not iterable and raise `TypeError`. -/
def pySet : JVal → Except PyErr (Finset JAtom)
  | .arr l =>
      match atomsOf l with
      | some atoms => .ok atoms.toFinset
      | none => .error .typeError
  | .atom (.str s) =>
      .ok ((s.toList.map fun c => JAtom.str (String.mk [c])).toFinset)
  | .atom _ => .error .typeError

/-- The observable state of the registry file `CHAT_IDS_FILE` as seen
through `open` + `json.load`: the file may be missing
(`FileNotFoundError`), present but not syntactically valid JSON
(`json.JSONDecodeError`) — e.g. an empty or truncated file — or present
and parsing to a JSON value. -/
inductive FileState
  | missing
  | invalidJson
  | json (v : JVal)

/-- `_load_chat_ids` (src/bot.py lines 30–37): reads `CHAT_IDS_FILE`,
sets `registered_chat_ids = set(json.load(f))`; `FileNotFoundError` and
`json.JSONDecodeError` are caught and yield the empty set.  Any other
exception (e.g. the `TypeError` from `set(...)` on a non-iterable JSON
value) propagates to the caller. -/
def loadChatIds : FileState → Except PyErr (Finset JAtom)
  | .missing => .ok ∅
  | .invalidJson => .ok ∅
  | .json v => pySet v

/-- The parse-level view of the file written by `json.dump(l, f)` for a
list of integers. -/
def fileOfList (l : List Int) : FileState :=
  .json (.arr (l.map fun n => .atom (.num n)))

/-- The list written by `_save_chat_ids` (src/bot.py lines 40–42):
`json.dump(sorted(registered_chat_ids), f)` — the set's elements in
increasing order. -/
def saveFile (s : Finset Int) : List Int :=
  s.sort (· ≤ ·)

/-- Loading a well-formed registry file (a JSON array of integers) into
the in-memory set, i.e. `set(json.load(f))` on such a file. -/
def loadFile (l : List Int) : Finset Int :=
  l.toFinset

/-- The sequence of file states the registry file passes through during
`_save_chat_ids` (src/bot.py lines 40–42): `open(CHAT_IDS_FILE, "w")`
truncates the file in place (an empty file is not valid JSON), then
`json.dump` writes the sorted list.  There is no write-to-temp-and-
rename; the truncated state is observable if the process is interrupted
mid-write. -/
def saveChatIdsStates (old : FileState) (s : Finset Int) : List FileState :=
  [old, .invalidJson, fileOfList (saveFile s)]

/-- One log line emitted by the dispatcher: the `logging` level of the
call and the `chat_id` interpolated into the message. -/
structure LogEntry where
  level : LogLevel
  chatId : Int
deriving DecidableEq, Repr

/-- The observable outcome of one `_send_to_all` call: the list of chat
ids to which `bot.send_message` was attempted, in iteration order, and
the log lines emitted.  The function being total in Lean reflects that
`_send_to_all` raises no exception to its caller: every send failure is
caught by the per-recipient `except Exception` block. -/
structure SendOutcome where
  attempts : List Int
  logs : List LogEntry
deriving DecidableEq, Repr

/-- The per-recipient loop of `_send_to_all` (src/bot.py lines 91–96):
for each chat id, attempt one send; on success log at `info` level, on
failure (`fails id = true`, the fault pattern) catch the exception and
log at `error` level, then continue with the remaining ids. -/
def sendLoop (fails : Int → Bool) : List Int → SendOutcome
  | [] => ⟨[], []⟩
  | id :: rest =>
      let r := sendLoop fails rest
      if fails id then
        ⟨id :: r.attempts, ⟨.error, id⟩ :: r.logs⟩
      else
        ⟨id :: r.attempts, ⟨.info, id⟩ :: r.logs⟩

/-- `_send_to_all` (src/bot.py lines 87–96): if `_app` is unset or the
registered set is empty, return immediately with no send attempt and no
log line; otherwise iterate over `list(registered_chat_ids)` (the
snapshot `ids`) sending to each. -/
def sendToAll (appReady : Bool) (ids : List Int) (fails : Int → Bool) :
    SendOutcome :=
  if !appReady || ids.isEmpty then ⟨[], []⟩
  else sendLoop fails ids

/-- The mutable module-level registry state: the in-memory set
`registered_chat_ids`, the persisted file content (well-formed: the
JSON integer array in `chat_ids.json`), and a count of completed
`_save_chat_ids` calls. -/
structure RegState where
  mem : Finset Int
  file : List Int
  writes : Nat
deriving DecidableEq

/-- `_save_chat_ids` as a state transition: writes the sorted in-memory
set to the file. -/
def doSave (st : RegState) : RegState :=
  { mem := st.mem, file := saveFile st.mem, writes := st.writes + 1 }

/-- `_register_chat_id` (src/bot.py lines 45–52): if the chat id is
already registered return `False` with no mutation and no write;
otherwise add it to the set, persist, and return `True`. -/
def registerChatId (chatId : Int) (st : RegState) : Bool × RegState :=
  if chatId ∈ st.mem then (false, st)
  else (true, doSave { mem := insert chatId st.mem, file := st.file,
                       writes := st.writes })

/-- The registry effect of `cmd_stop` (src/bot.py lines 138–145): if
the caller's chat id is registered, discard it from the set and
persist (the bot replies that notifications were disabled, `true`);
otherwise leave the state untouched and reply that nothing was
registered (`false`). -/
def stopChatId (chatId : Int) (st : RegState) : Bool × RegState :=
  if chatId ∈ st.mem then
    (true, doSave { mem := st.mem.erase chatId, file := st.file,
                    writes := st.writes })
  else (false, st)

/-- Python `str.strip()`: drop leading and trailing whitespace. -/
def pyStrip (s : String) : String :=
  String.mk
    (((s.toList.dropWhile Char.isWhitespace).reverse.dropWhile
        Char.isWhitespace).reverse)

/-- `TELEGRAM_BOT_TOKEN = (os.getenv("TELEGRAM_BOT_TOKEN") or "").strip()`
(src/bot.py line 14): the environment value, empty string when the
variable is absent, with surrounding whitespace stripped. -/
def telegramBotToken (env : Option String) : String :=
  pyStrip (env.getD "")

/-- The steps `main` (src/bot.py lines 192–202) performs after the
token check, in order: building the `Application` (which installs the
`post_init` scheduler hook), adding the three command handlers, and
entering `run_polling`. -/
inductive MainStep
  | buildApplication
  | addHandler (command : String)
  | runPolling
deriving DecidableEq, Repr

/-- `main` (src/bot.py lines 192–202): raises `EnvironmentError` before
any other step when the (stripped) token is empty; otherwise builds the
application, registers the handlers and polls.  `Except.error` carries
no steps: nothing is constructed before the raise. -/
def mainProgram (env : Option String) : Except String (List MainStep) :=
  if telegramBotToken env = "" then
    .error "TELEGRAM_BOT_TOKEN not set"
  else
    .ok [.buildApplication, .addHandler "start", .addHandler "stop",
         .addHandler "status", .runPolling]

/-! ## Next-fire computation

Modelled from the spec: the next-fire computation for a job's
cron-style recurrence rule is performed by `CronTrigger` of the
`apscheduler` library, which is a dependency and not part of this
repository's sources; §4.3 of the spec describes the algorithm: "given
the recurrence rule and now in the fixed timezone, find the soonest
instant ≥ now whose weekday is in the allowed set and whose
(hour, minute) matches; if now exactly matches up to the minute, the
next fire is the following matching instant, not the current one".

Instants are minutes since an epoch falling on a Monday 00:00 in the
rule's fixed timezone (KST); a week is `7 * 1440 = 10080` minutes. -/

/-- A cron-style recurrence rule as used in `post_init` (src/bot.py
lines 174–183): an allowed weekday set (0 = Monday … 6 = Sunday, the
full set for the daily jobs, `{6}` for the Sunday weekly review), an
hour and a minute, all in the fixed KST offset. -/
structure CronRule where
  days : Finset (Fin 7)
  hour : Nat
  minute : Nat
deriving DecidableEq

/-- Weekday of an instant (minutes since a Monday-00:00 epoch). -/
def wdayOf (t : Nat) : Fin 7 :=
  ⟨t / 1440 % 7, Nat.mod_lt _ (by norm_num)⟩

/-- Does the instant match the rule's (weekday, hour, minute)? -/
def cronMatches (r : CronRule) (t : Nat) : Bool :=
  decide (wdayOf t ∈ r.days) && (t % 1440 / 60 == r.hour)
    && (t % 60 == r.minute)

/-- Modelled from the spec: linear search for the first matching
instant at or after `t`, with explicit fuel (one week plus one minute
always suffices for a satisfiable rule). -/
def searchFire (r : CronRule) : Nat → Nat → Option Nat
  | 0, _ => none
  | fuel + 1, t => if cronMatches r t then some t else searchFire r fuel (t + 1)

/-- Modelled from the spec (§4.3): the soonest matching instant ≥ now,
except that when now itself matches up to the minute the search starts
strictly after now, so the current instant is never returned. -/
def nextFire (r : CronRule) (now : Nat) : Option Nat :=
  if cronMatches r now then searchFire r 10080 (now + 1)
  else searchFire r 10081 now

/-! ## Helper lemmas -/

/-- The loop always attempts exactly the ids it is given, in order,
whatever the fault pattern: a failure changes only the log line, never
the iteration. -/
theorem sendLoop_attempts (fails : Int → Bool) (ids : List Int) :
    (sendLoop fails ids).attempts = ids := by
  induction ids with
  | nil => rfl
  | cons id rest ih =>
      cases h : fails id <;> simp [sendLoop, h, ih]

/-- `atomsOf` undoes wrapping a list of integers as JSON atoms. -/
theorem atomsOf_num (l : List Int) :
    atomsOf (l.map fun n => JVal.atom (.num n)) = some (l.map JAtom.num) := by
  induction l with
  | nil => rfl
  | cons n rest ih => simp [atomsOf, ih, JVal.asAtom]

/-- Loading a well-formed file (a JSON integer array) succeeds and
yields the set of its elements, wrapped as atoms: the parse-level model
`loadChatIds` agrees with the well-formed-level model `loadFile`. -/
theorem loadChatIds_fileOfList (l : List Int) :
    loadChatIds (fileOfList l) = .ok ((l.map JAtom.num).toFinset) := by
  simp [loadChatIds, fileOfList, pySet, atomsOf_num]

/-! ## C1 — broadcast attempts one send per recipient, isolating failures -/

/-- C1: for every recipient snapshot (duplicate-free, as produced by
`list(registered_chat_ids)`) and every fault pattern, `_send_to_all`
attempts exactly the listed recipients — the attempt list does not
depend on which sends fail, so one recipient's failure never suppresses
the others — and each recipient receives exactly one send attempt.  The
model function is total: no exception reaches the caller. -/
theorem broadcast_isolates_failures (ids : List Int) (fails : Int → Bool)
    (hnd : ids.Nodup) :
    (sendToAll true ids fails).attempts = ids ∧
      ∀ i ∈ ids, (sendToAll true ids fails).attempts.count i = 1 := by
  have hatt : (sendToAll true ids fails).attempts = ids := by
    cases ids with
    | nil => rfl
    | cons a l => simpa [sendToAll] using sendLoop_attempts fails (a :: l)
  refine ⟨hatt, fun i hi => ?_⟩
  rw [hatt]
  exact List.count_eq_one_of_mem hnd hi

/-- Witness for C1: broadcasting to `[A, B, C] = [1, 2, 3]` where
sending to `B = 2` fails still attempts each of the three exactly
once. -/
theorem broadcast_isolates_failures_witness :
    (sendToAll true [1, 2, 3] (fun i => i == 2)).attempts = [1, 2, 3] ∧
      ∀ i ∈ [(1 : Int), 2, 3],
        (sendToAll true [1, 2, 3] (fun i => i == 2)).attempts.count i = 1 :=
  broadcast_isolates_failures [1, 2, 3] (fun i => i == 2) (by decide)

/-! ## C2 — save is not atomic: truncate-then-write, no temp file -/

/-- C2 counterexample: with old persisted content `[1]` and new set
`{2}`, the file passes through the truncated (not valid JSON) state,
which is neither the old complete content nor the new complete content:
`_save_chat_ids` opens the destination with mode `"w"` (truncating in
place) and writes directly, with no write-to-temp-then-rename. -/
theorem save_not_atomic_counterexample :
    ∃ st ∈ saveChatIdsStates (fileOfList [1]) {2},
      st ≠ fileOfList [1] ∧ st ≠ fileOfList (saveFile {2}) := by
  refine ⟨.invalidJson, by simp [saveChatIdsStates], ?_, ?_⟩ <;>
    simp [fileOfList]

/-- C2 amended: every save overwrites the file in place with the full
current set serialized as a sorted sequence — the write sequence starts
from the old content and ends with the new complete content (a sorted,
duplicate-free list holding exactly the set's elements) — but the write
is not atomic: interruption mid-write can expose a truncated file. -/
theorem save_overwrites_sorted (old : FileState) (s : Finset Int) :
    (saveChatIdsStates old s).head? = some old ∧
      (saveChatIdsStates old s).getLast? = some (fileOfList (saveFile s)) ∧
      List.Sorted (· ≤ ·) (saveFile s) ∧ (saveFile s).Nodup ∧
      (saveFile s).toFinset = s := by
  refine ⟨rfl, rfl, Finset.sort_sorted _ _, Finset.sort_nodup _ _,
    Finset.sort_toFinset _ _⟩

/-! ## C3 — load on missing/malformed storage -/

/-- C3 counterexample: a present registry file whose content is the
valid JSON text `5` — malformed as registry content — makes
`_load_chat_ids` raise `TypeError` (from `set(5)`), which is not among
the caught exceptions (`FileNotFoundError`, `json.JSONDecodeError`), so
the error is visible to the caller and startup fails. -/
theorem load_malformed_raises_counterexample :
    loadChatIds (.json (.atom (.num 5))) = .error .typeError := rfl

/-- C3 amended: on a missing file or a file whose content is not
syntactically valid JSON, `_load_chat_ids` returns the empty set and
raises no error; but content that is valid JSON yet not iterable (a
number, boolean or `None`) raises an uncaught `TypeError`. -/
theorem load_missing_or_unparseable_empty :
    loadChatIds .missing = .ok ∅ ∧ loadChatIds .invalidJson = .ok ∅ ∧
      ∀ a : JAtom, (a matches .str _) = false →
        loadChatIds (.json (.atom a)) = .error .typeError := by
  refine ⟨rfl, rfl, fun a ha => ?_⟩
  cases a <;> simp_all [loadChatIds, pySet]

/-- Witness for C3 amended: the missing-file case evaluated, and the
`TypeError` case evaluated at the JSON content `5`. -/
theorem load_missing_or_unparseable_empty_witness :
    loadChatIds .missing = .ok ∅ :=
  (load_missing_or_unparseable_empty).1

/-! ## C10 — save-then-load is the identity on sets of integers -/

/-- C10: for every finite set of integer identifiers, serializing it as
a sorted JSON list (`_save_chat_ids`) and deserializing into a set
(`_load_chat_ids` on the resulting well-formed file) yields exactly the
original set. -/
theorem load_save_identity (s : Finset Int) : loadFile (saveFile s) = s :=
  Finset.sort_toFinset _ s

/-! ## C4 — add semantics -/

/-- C4: `_register_chat_id i` returns `True` and performs exactly one
persistence write iff `i` was absent; when `i` was already present it
returns `False` and leaves the whole state (set, file, write count)
unchanged; in both cases `i` is registered afterwards, so a subsequent
containment check yields true. -/
theorem register_add_spec (i : Int) (st : RegState) :
    ((registerChatId i st).1 = true ↔ i ∉ st.mem) ∧
      (i ∈ st.mem → (registerChatId i st).2 = st) ∧
      (i ∉ st.mem →
        (registerChatId i st).2.mem = insert i st.mem ∧
          (registerChatId i st).2.writes = st.writes + 1 ∧
          (registerChatId i st).2.file = saveFile (insert i st.mem)) ∧
      i ∈ (registerChatId i st).2.mem := by
  by_cases h : i ∈ st.mem <;>
    simp [registerChatId, doSave, h]

/-- Witness for C4 at chat id 5 and the empty initial state. -/
theorem register_add_spec_witness :
    ((registerChatId 5 ⟨∅, [], 0⟩).1 = true ↔ 5 ∉ (∅ : Finset Int)) ∧
      ((5 : Int) ∈ (∅ : Finset Int) → (registerChatId 5 ⟨∅, [], 0⟩).2 = ⟨∅, [], 0⟩) ∧
      ((5 : Int) ∉ (∅ : Finset Int) →
        (registerChatId 5 ⟨∅, [], 0⟩).2.mem = insert 5 ∅ ∧
          (registerChatId 5 ⟨∅, [], 0⟩).2.writes = 0 + 1 ∧
          (registerChatId 5 ⟨∅, [], 0⟩).2.file = saveFile (insert 5 ∅)) ∧
      (5 : Int) ∈ (registerChatId 5 ⟨∅, [], 0⟩).2.mem :=
  register_add_spec 5 ⟨∅, [], 0⟩

/-! ## C5 — remove semantics -/

/-- C5: the registry effect of `cmd_stop` for caller `i`: removal
happens (affirmative reply) and exactly one persistence write is
performed iff `i` was present; when `i` was absent the whole state is
unchanged and no write is issued; in both cases `i` is not registered
afterwards, so a subsequent containment check yields false. -/
theorem stop_remove_spec (i : Int) (st : RegState) :
    ((stopChatId i st).1 = true ↔ i ∈ st.mem) ∧
      (i ∉ st.mem → (stopChatId i st).2 = st) ∧
      (i ∈ st.mem →
        (stopChatId i st).2.mem = st.mem.erase i ∧
          (stopChatId i st).2.writes = st.writes + 1 ∧
          (stopChatId i st).2.file = saveFile (st.mem.erase i)) ∧
      i ∉ (stopChatId i st).2.mem := by
  by_cases h : i ∈ st.mem <;>
    simp [stopChatId, doSave, h]

/-- Witness for C5 at chat id 5 and initial registered set `{5}`. -/
theorem stop_remove_spec_witness :
    ((stopChatId 5 ⟨{5}, [5], 1⟩).1 = true ↔ (5 : Int) ∈ ({5} : Finset Int)) ∧
      ((5 : Int) ∉ ({5} : Finset Int) → (stopChatId 5 ⟨{5}, [5], 1⟩).2 = ⟨{5}, [5], 1⟩) ∧
      ((5 : Int) ∈ ({5} : Finset Int) →
        (stopChatId 5 ⟨{5}, [5], 1⟩).2.mem = ({5} : Finset Int).erase 5 ∧
          (stopChatId 5 ⟨{5}, [5], 1⟩).2.writes = 1 + 1 ∧
          (stopChatId 5 ⟨{5}, [5], 1⟩).2.file = saveFile (({5} : Finset Int).erase 5)) ∧
      (5 : Int) ∉ (stopChatId 5 ⟨{5}, [5], 1⟩).2.mem :=
  stop_remove_spec 5 ⟨{5}, [5], 1⟩

/-! ## C7 — missing token is startup-fatal -/

/-- C7: whenever the channel-auth token is absent from the process
configuration (the environment variable unset, or set to a value that
strips to the empty string), `main` raises `EnvironmentError` before
performing any other step: the error outcome carries no construction
step, so no application is built, and no handler or scheduler hook is
installed. -/
theorem missing_token_fatal (env : Option String)
    (h : telegramBotToken env = "") :
    mainProgram env = .error "TELEGRAM_BOT_TOKEN not set" := by
  simp [mainProgram, h]

/-- Witness for C7: with the environment variable unset, `main`
fails. -/
theorem missing_token_fatal_witness :
    mainProgram none = .error "TELEGRAM_BOT_TOKEN not set" :=
  missing_token_fatal none (by decide)

/-! ## C8 — empty/uninitialized broadcast is a silent no-op -/

/-- C8 counterexample: invoking `_send_to_all` before `_app` is set
(and with any recipient snapshot) performs zero send attempts — but
emits no log line at all, in particular no warning: the guard branch is
a bare `return`. -/
theorem broadcast_noop_counterexample :
    (sendToAll false [7] (fun _ => false)).attempts = [] ∧
      ¬ ∃ e ∈ (sendToAll false [7] (fun _ => false)).logs,
        e.level = LogLevel.warning := by
  constructor
  · rfl
  · decide

/-- C8 amended: whenever broadcast is invoked with an empty recipient
sequence or before the send capability is initialized, it is a no-op
that returns immediately with zero send attempts and no log output of
any level (the guard logs nothing, so no warning is emitted). -/
theorem broadcast_noop (appReady : Bool) (ids : List Int)
    (fails : Int → Bool) (h : appReady = false ∨ ids = []) :
    sendToAll appReady ids fails = ⟨[], []⟩ := by
  rcases h with h | h <;> simp [sendToAll, h]

/-- Witness for C8 amended: uninitialized send capability with a
nonempty snapshot. -/
theorem broadcast_noop_witness :
    sendToAll false [7] (fun _ => false) = ⟨[], []⟩ :=
  broadcast_noop false [7] (fun _ => false) (Or.inl rfl)

/-! ## C9 — load-then-save reproduces a well-formed file -/

/-- C9: for every well-formed persisted registry file — a strictly
increasing list of integers, as `_save_chat_ids` produces from a set —
loading it into a set and saving that set writes back the identical
sorted sequence. -/
theorem save_load_roundtrip (l : List Int) (h : List.Sorted (· < ·) l) :
    saveFile (loadFile l) = l := by
  have hsorted : List.Sorted (· ≤ ·) (saveFile (loadFile l)) :=
    Finset.sort_sorted _ _
  have hnodup : (saveFile (loadFile l)).Nodup := Finset.sort_nodup _ _
  have hlnodup : l.Nodup := h.nodup
  have hperm : List.Perm (saveFile (loadFile l)) l := by
    apply List.perm_of_nodup_nodup_toFinset_eq hnodup hlnodup
    simp [saveFile, loadFile, Finset.sort_toFinset]
  exact List.eq_of_perm_of_sorted hperm hsorted (h.imp le_of_lt)

/-- Witness for C9 at the persisted file `[1, 2, 3]`. -/
theorem save_load_roundtrip_witness :
    saveFile (loadFile [1, 2, 3]) = [1, 2, 3] :=
  save_load_roundtrip [1, 2, 3] (by decide)

/-! ## C6 — on an exact match, the next fire is strictly later -/

/-- The four recurrence rules registered in `post_init` (src/bot.py
lines 174–183): three daily rules and the Sunday weekly review
(weekday 6 with Monday = 0). -/
def dailyEnglishRule : CronRule := ⟨Finset.univ, 9, 30⟩

def dailyHealthRule : CronRule := ⟨Finset.univ, 19, 0⟩

def dailyReadingRule : CronRule := ⟨Finset.univ, 22, 0⟩

def weeklyReviewRule : CronRule := ⟨{6}, 19, 0⟩

/-- A successful bounded search returns the least matching instant at
or after its start. -/
theorem searchFire_some (r : CronRule) (fuel : Nat) :
    ∀ t s : Nat, searchFire r fuel t = some s →
      t ≤ s ∧ cronMatches r s = true ∧
        ∀ u, t ≤ u → u < s → cronMatches r u = false := by
  induction fuel with
  | zero => intro t s h; simp [searchFire] at h
  | succ n ih =>
      intro t s h
      rw [searchFire] at h
      by_cases hm : cronMatches r t
      · rw [if_pos hm] at h
        injection h with h
        subst h
        exact ⟨le_refl t, hm, fun u h1 h2 => absurd h1 (Nat.not_le.mpr h2)⟩
      · rw [if_neg hm] at h
        obtain ⟨h1, h2, h3⟩ := ih (t + 1) s h
        refine ⟨Nat.le_of_succ_le h1, h2, fun u hu1 hu2 => ?_⟩
        rcases Nat.eq_or_lt_of_le hu1 with heq | hlt
        · subst heq
          exact Bool.eq_false_iff.mpr hm
        · exact h3 u hlt hu2

/-- C6: whenever the current instant exactly matches a job's
(weekday, hour, minute) rule, the computed next fire is strictly after
the current instant — never the current instant itself — and it is the
following matching instant: it matches the rule and no instant strictly
between now and it matches. -/
theorem next_fire_after_exact_match (r : CronRule) (now t : Nat)
    (hnow : cronMatches r now = true) (ht : nextFire r now = some t) :
    now < t ∧ cronMatches r t = true ∧
      ∀ u, now < u → u < t → cronMatches r u = false := by
  rw [nextFire, if_pos hnow] at ht
  obtain ⟨h1, h2, h3⟩ := searchFire_some r 10080 (now + 1) t ht
  exact ⟨h1, h2, fun u hu1 hu2 => h3 u hu1 hu2⟩

set_option maxRecDepth 100000 in
/-- Witness for C6: for the daily 9:30 rule with now = Monday 9:30
(minute 570 of the week), the computed next fire is minute 2010
(Tuesday 9:30), one full daily cycle later and strictly after now. -/
theorem next_fire_after_exact_match_witness :
    570 < 2010 ∧ cronMatches dailyEnglishRule 2010 = true :=
  ⟨(next_fire_after_exact_match dailyEnglishRule 570 2010 (by decide)
      (by decide)).1,
   (next_fire_after_exact_match dailyEnglishRule 570 2010 (by decide)
      (by decide)).2.1⟩
